import Mathlib

/-!
Verification development for the geoip consensus engine (`GeoipClient` in
`src/lib/geoip/client.ts`).

The data model and each operation (`lookup`, `bestMatch`, `matchNetwork`,
`matchRegion`, `lookupWithCache`) are shallowly embedded below, translated
from the TypeScript source:
  * settled promises (`Promise.allSettled`) become `Option`/`Except` values,
  * JavaScript truthiness of the string fields becomes `≠ ""`, of the numeric
    `asn` field becomes `≠ 0`,
  * `_.groupBy` followed by `Object.values` becomes an insertion-order
    grouping into an association list (`insertGrouped`/`groupByKey`) followed
    by `map Prod.snd`,
  * `Array.prototype.sort` (stable per the ECMAScript specification) with the
    comparator `(a, b) => b.length - a.length` becomes the stable insertion
    sort `sortGroupsDesc`,
  * the external collaborators (allowlist, region resolver) become the
    function fields of `GeoEnv`,
  * thrown errors become `Except.error` with a `GeoError` distinguishing
    `InternalError(message, expose)` from a plain `Error(message)`.
-/

/-- The five geoip data sources, in the fixed priority order used by `lookup`
(ip2location > ipmap > maxmind > ipinfo > fastly). -/
inductive Provider where
  | ip2location
  | ipmap
  | maxmind
  | ipinfo
  | fastly
deriving DecidableEq, Repr

/-- `LocationInfo` from the source: one provider's normalized location fields.
`state` is `Option` (it is `string | undefined` in the source), `asn` is a
number where `0` means absent, and the latitude/longitude numbers are kept
abstract as integers (no arithmetic is ever performed on them). -/
structure LocationInfo where
  continent : String
  country : String
  state : Option String
  city : String
  normalizedCity : String
  asn : Nat
  latitude : Int
  longitude : Int
  network : String
  normalizedNetwork : String
deriving DecidableEq, Repr

/-- `LocationInfoWithProvider`: a `LocationInfo` tagged with its source. -/
structure LocationInfoWithProvider extends LocationInfo where
  provider : Provider
deriving DecidableEq, Repr

/-- `NetworkInfo` from the source. -/
structure NetworkInfo where
  network : String
  normalizedNetwork : String
  asn : Nat
deriving DecidableEq, Repr

/-- `RegionInfo` from the source. -/
structure RegionInfo where
  region : String
  normalizedRegion : String
deriving DecidableEq, Repr

/-- `Ip2LocationBundledResponse`: the ip2location adapter's payload, a
location plus the `isProxy` flag consumed by the VPN gate. -/
structure Ip2LocationBundledResponse where
  location : LocationInfo
  isProxy : Bool
deriving DecidableEq, Repr

/-- `ProbeLocation`: the fully merged result returned by `lookup`. -/
structure ProbeLocation where
  continent : String
  country : String
  state : Option String
  city : String
  region : String
  normalizedRegion : String
  normalizedCity : String
  asn : Nat
  latitude : Int
  longitude : Int
  network : String
  normalizedNetwork : String
deriving DecidableEq, Repr

/-- Errors thrown by `lookup`: `internalError` models the source's
`InternalError(message, expose)` class, `genericError` a plain JavaScript
`Error(message)` (thrown by `bestMatch`). -/
inductive GeoError where
  | internalError (message : String) (expose : Bool)
  | genericError (message : String)
deriving DecidableEq, Repr

/-- The external collaborators of the engine: the allowlist membership test
(`isAddrWhitelisted`) and the region resolver (`getRegionByCountry` composed
with `normalizeRegionName`). -/
structure GeoEnv where
  isAddrWhitelisted : String → Bool
  getRegionByCountry : String → String
  normalizeRegionName : String → String

/-- One step of `_.groupBy`: push `x` onto the group keyed `k`, creating the
group at the end of the association list when the key is new (lodash iterates
the collection in order and assigns into a plain object, whose non-index
string keys enumerate in insertion order). -/
def insertGrouped {α : Type} (k : String) (x : α) :
    List (String × List α) → List (String × List α)
  | [] => [(k, [x])]
  | p :: rest =>
    if p.fst == k then (p.fst, p.snd ++ [x]) :: rest
    else p :: insertGrouped k x rest

/-- `_.groupBy(l, f)` as an association list from key to group, keys in
first-seen order, members of each group in collection order. -/
def groupByKey {α : Type} (f : α → String) (l : List α) : List (String × List α) :=
  l.foldl (fun acc x => insertGrouped (f x) x acc) []

/-- Insert a group into a list already sorted by descending length, before
the first group of smaller-or-equal length.  Folding this over the input
(`sortGroupsDesc`) computes exactly the stable sort by descending length,
i.e. the result of `grouped.sort((a, b) => b.length - a.length)` under the
ECMAScript guarantee that `Array.prototype.sort` is stable. -/
def insertByLenDesc {α : Type} (g : List α) : List (List α) → List (List α)
  | [] => [g]
  | h :: t =>
    if h.length ≤ g.length then g :: h :: t
    else h :: insertByLenDesc g t

/-- Stable sort of the groups by descending length. -/
def sortGroupsDesc {α : Type} : List (List α) → List (List α)
  | [] => []
  | g :: rest => insertByLenDesc g (sortGroupsDesc rest)

/-- ECMAScript array-index test for a property key: a string is an array
index when it is the canonical base-10 form (no signs, no leading zeros) of
an integer below 2^32 - 1.  Plain objects — the result of `_.groupBy` —
enumerate these keys first, in ascending numeric order, and only the
remaining string keys in insertion order. -/
def isArrayIndexKey (s : String) : Bool :=
  match s.data with
  | [] => false
  | c :: cs =>
    (c :: cs).all (fun d => decide (48 ≤ d.toNat) && decide (d.toNat ≤ 57))
    && (!(decide (c = '0')) || cs.isEmpty)
    && decide ((c :: cs).foldl (fun n d => n * 10 + (d.toNat - 48)) 0 < 4294967295)

/-- The numeric value of an array-index key (the base-10 reading of its
digits; unused on other strings). -/
def arrayIndexVal (s : String) : Nat :=
  s.data.foldl (fun n d => n * 10 + (d.toNat - 48)) 0

/-- Insert an entry into a list of entries sorted by ascending numeric key
value, before the first entry of greater-or-equal value. -/
def insertIndexAsc {α : Type} (p : String × List α) :
    List (String × List α) → List (String × List α)
  | [] => [p]
  | q :: t =>
    if arrayIndexVal p.fst ≤ arrayIndexVal q.fst then p :: q :: t
    else q :: insertIndexAsc p t

/-- Sort the array-index-keyed entries by ascending numeric key value. -/
def sortIndexAsc {α : Type} : List (String × List α) → List (String × List α)
  | [] => []
  | p :: rest => insertIndexAsc p (sortIndexAsc rest)

/-- `Object.values` over the plain object built by `_.groupBy`, following
the ECMAScript own-property enumeration order: the groups keyed by an
array-index string come first, in ascending numeric order, followed by the
remaining groups in insertion (first-seen) order. -/
def objectValues {α : Type} (assoc : List (String × List α)) : List (List α) :=
  (sortIndexAsc (assoc.filter (fun p => isArrayIndexKey p.fst))
    ++ assoc.filter (fun p => !isArrayIndexKey p.fst)).map Prod.snd

/-- `sources.filter(s => s[field])` from `bestMatch`: keep the candidates
whose `field` value is truthy (a non-empty string). -/
def voteFiltered (field : LocationInfoWithProvider → String)
    (sources : List LocationInfoWithProvider) : List LocationInfoWithProvider :=
  sources.filter (fun s => field s != "")

/-- The ranked candidate sequence of `bestMatch`:
`Object.values(_.groupBy(filtered, field)).sort((a, b) => b.length - a.length).flat()`. -/
def rankCandidates (field : LocationInfoWithProvider → String)
    (sources : List LocationInfoWithProvider) : List LocationInfoWithProvider :=
  (sortGroupsDesc (objectValues (groupByKey field (voteFiltered field sources)))).flatten

/-- `GeoipClient.bestMatch`: vote, then fail (`none`, translated by `lookup`
into the thrown plain `Error`) when there is no winner or the winner comes
from fastly; otherwise return the winner without its provider tag
(`_.omit(best, 'provider')`) together with the ranked sequence. -/
def bestMatch (field : LocationInfoWithProvider → String)
    (sources : List LocationInfoWithProvider) :
    Option (LocationInfo × List LocationInfoWithProvider) :=
  let ranked := rankCandidates field sources
  match ranked.head? with
  | none => none
  | some best =>
    if best.provider = Provider.fastly then none
    else some (best.toLocationInfo, ranked)

/-- `GeoipClient.matchNetwork`: use the winner's own ASN/network when both
are truthy, otherwise take them from the first ranked candidate of the same
`normalizedCity` carrying both. -/
def matchNetwork (best : LocationInfo)
    (rankedSources : List LocationInfoWithProvider) : Option NetworkInfo :=
  if best.asn ≠ 0 ∧ best.network ≠ "" then
    some { asn := best.asn, network := best.network,
           normalizedNetwork := best.normalizedNetwork }
  else
    (rankedSources.find? (fun s =>
        s.normalizedCity == best.normalizedCity && s.asn != 0 && s.network != "")).map
      (fun s => { asn := s.asn, network := s.network,
                  normalizedNetwork := s.normalizedNetwork })

/-- `GeoipClient.matchRegion`. -/
def matchRegion (env : GeoEnv) (best : LocationInfo) : RegionInfo :=
  let region := env.getRegionByCountry best.country
  { region := region, normalizedRegion := env.normalizeRegionName region }

/-- The candidate list built by `lookup` from the five settled source
queries: one record per fulfilled source, pushed in the fixed priority order
ip2location, ipmap, maxmind, ipinfo, fastly, then `filter(Boolean).flat()`. -/
def candidateRecords (i2l : Option Ip2LocationBundledResponse)
    (ipm mm ipi fa : Option LocationInfo) : List LocationInfoWithProvider :=
  ([ i2l.map (fun v => { toLocationInfo := v.location, provider := Provider.ip2location }),
     ipm.map (fun v => { toLocationInfo := v, provider := Provider.ipmap }),
     mm.map (fun v => { toLocationInfo := v, provider := Provider.maxmind }),
     ipi.map (fun v => { toLocationInfo := v, provider := Provider.ipinfo }),
     fa.map (fun v => { toLocationInfo := v, provider := Provider.fastly }) ] :
    List (Option LocationInfoWithProvider)).filterMap id

/-- The VPN gate condition of `lookup`:
`ip2location.status === 'fulfilled' && ip2location.value.isProxy && !isAddrWhitelisted(addr)`. -/
def vpnDetected (env : GeoEnv) (addr : String)
    (i2l : Option Ip2LocationBundledResponse) : Bool :=
  (match i2l with
   | some v => v.isProxy
   | none => false) && !(env.isAddrWhitelisted addr)

/-- The step-4 failure condition of `lookup`:
`resultsWithCities.length === 0 || (resultsWithCities.length === 1 && resultsWithCities[0]?.provider === 'fastly')`. -/
def unresolvableCheck (results : List LocationInfoWithProvider) : Bool :=
  let resultsWithCities := results.filter (fun s => s.city != "")
  resultsWithCities.length == 0 ||
    (resultsWithCities.length == 1 &&
      decide (resultsWithCities.head?.map (fun s => s.provider) = some Provider.fastly))

/-- `GeoipClient.lookup`, as a function of the address, the five settled
adapter outcomes (`none` models a rejected promise), and the external
collaborators in `env`. -/
def lookup (env : GeoEnv) (addr : String) (i2l : Option Ip2LocationBundledResponse)
    (ipm mm ipi fa : Option LocationInfo) : Except GeoError ProbeLocation :=
  let results := candidateRecords i2l ipm mm ipi fa
  if vpnDetected env addr i2l then
    Except.error (GeoError.internalError "vpn detected" true)
  else if unresolvableCheck results then
    Except.error (GeoError.internalError ("unresolvable geoip: " ++ addr) true)
  else
    match bestMatch (fun s => s.normalizedCity) results with
    | none =>
      Except.error (GeoError.genericError
        "failed to find a correct value for a field \"normalizedCity\"")
    | some (m, ranked) =>
      match matchNetwork m ranked with
      | none =>
        Except.error (GeoError.internalError ("unresolvable geoip: " ++ addr) true)
      | some networkMatch =>
        let region := matchRegion env m
        Except.ok {
          continent := m.continent
          country := m.country
          state := m.state
          city := m.city
          region := region.region
          normalizedRegion := region.normalizedRegion
          normalizedCity := m.normalizedCity
          asn := networkMatch.asn
          latitude := m.latitude
          longitude := m.longitude
          network := networkMatch.network
          normalizedNetwork := networkMatch.normalizedNetwork }

/-- The outcome of one cache backend interaction for `lookupWithCache`:
what `cache.get` resolved to (`Except.error` models a rejected promise,
`Except.ok none` an absent entry) and what `cache.set` resolved to. -/
structure CacheBehavior (T : Type) where
  getOutcome : Except String (Option T)
  setOutcome : Except String Unit

/-- The observable behaviour of one `lookupWithCache` call: the value the
promise resolves to (or the error it rejects with), whether `fn` was
invoked, and the value passed to `cache.set` when that line is reached. -/
structure CacheCallTrace (T : Type) where
  result : Except String T
  fnInvoked : Bool
  cacheWrite : Option T

/-- The cache-miss path of `lookupWithCache`: invoke `fn` (a rejection
propagates), then attempt `cache.set` with the fresh value (the attempt's
failure is swallowed by `.catch`) and return the fresh value. -/
def cacheMissPath {T : Type} (fn : Except String T) : CacheCallTrace T :=
  match fn with
  | Except.error e => { result := Except.error e, fnInvoked := true, cacheWrite := none }
  | Except.ok info => { result := Except.ok info, fnInvoked := true, cacheWrite := some info }

/-- `GeoipClient.lookupWithCache`: `cache.get` with a `.catch` that turns any
backend failure into `undefined`, the truthiness test `if (cached)`, and on a
miss the computation plus fail-open `cache.set`.  `truthy` is JavaScript
truthiness on `T`. -/
def lookupWithCache {T : Type} (truthy : T → Bool) (cb : CacheBehavior T)
    (fn : Except String T) : CacheCallTrace T :=
  let cached : Option T :=
    match cb.getOutcome with
    | Except.error _ => none
    | Except.ok v => v
  match cached with
  | some c =>
    if truthy c then { result := Except.ok c, fnInvoked := false, cacheWrite := none }
    else cacheMissPath fn
  | none => cacheMissPath fn

/-- `Promise.allSettled` over one branch: a fulfilled promise contributes its
value, a rejected one contributes nothing. -/
def settle {α : Type} : Except String α → Option α
  | Except.ok v => some v
  | Except.error _ => none

/-- `lookup` as actually composed in the source: each adapter query runs
through `lookupWithCache` (the cached values are objects, hence always
truthy), and the five settled outcomes feed the consensus engine. -/
def lookupViaCache (env : GeoEnv) (addr : String)
    (cb1 : CacheBehavior Ip2LocationBundledResponse)
    (cb2 cb3 cb4 cb5 : CacheBehavior LocationInfo)
    (a1 : Except String Ip2LocationBundledResponse)
    (a2 a3 a4 a5 : Except String LocationInfo) : Except GeoError ProbeLocation :=
  lookup env addr
    (settle (lookupWithCache (fun _ => true) cb1 a1).result)
    (settle (lookupWithCache (fun _ => true) cb2 a2).result)
    (settle (lookupWithCache (fun _ => true) cb3 a3).result)
    (settle (lookupWithCache (fun _ => true) cb4 a4).result)
    (settle (lookupWithCache (fun _ => true) cb5 a5).result)

/-- Specification-side notion used to state the tie-break claim: the list of
distinct values of a list in order of first occurrence. -/
def firstSeen : List String → List String
  | [] => []
  | k :: ks => k :: firstSeen (ks.filter (fun k2 => k2 != k))
termination_by l => l.length
decreasing_by
  simp only [List.length_cons]
  exact Nat.lt_succ_of_le (List.length_filter_le _ _)

/-- Specification-side notion: how many members of `l` carry the key `k`. -/
def keyCount {α : Type} (f : α → String) (l : List α) (k : String) : Nat :=
  (l.filter (fun y => f y == k)).length

/-- The largest group length in a list of groups. -/
def maxLen {α : Type} (gs : List (List α)) : Nat :=
  gs.foldr (fun g a => max g.length a) 0

/-- Induction principle following the recursion structure of grouping: a
property holds of every list once it holds of `[]` and is preserved when
consing an element after removing every later element with the same key. -/
theorem filteredInduction {α : Type} (f : α → String) (motive : List α → Prop)
    (base : motive [])
    (step : ∀ x xs, motive (xs.filter (fun y => f y != f x)) → motive (x :: xs)) :
    ∀ l, motive l := by
  have key : ∀ (n : Nat) (l : List α), l.length ≤ n → motive l := by
    intro n
    induction n with
    | zero =>
      intro l hl
      have hnil : l = [] := List.length_eq_zero.mp (Nat.le_zero.mp hl)
      simpa [hnil] using base
    | succ n ih =>
      intro l hl
      match l with
      | [] => exact base
      | x :: xs =>
        refine step x xs (ih _ ?_)
        exact Nat.le_trans (List.length_filter_le _ _) (Nat.le_of_succ_le_succ hl)
  exact fun l => key l.length l (Nat.le_refl _)

/-- Folding the grouping step over a list with a group `(k, g)` at the head
of the accumulator: members keyed `k` are appended to that group, all other
members are processed against the rest of the accumulator. -/
theorem foldl_insertGrouped {α : Type} (f : α → String) :
    ∀ (l : List α) (k : String) (g : List α) (acc : List (String × List α)),
      l.foldl (fun a x => insertGrouped (f x) x a) ((k, g) :: acc)
        = (k, g ++ l.filter (fun y => f y == k)) ::
            (l.filter (fun y => f y != k)).foldl (fun a x => insertGrouped (f x) x a) acc := by
  intro l
  induction l with
  | nil => intro k g acc; simp
  | cons x xs ih =>
    intro k g acc
    by_cases h : f x = k
    · have hstep : insertGrouped (f x) x ((k, g) :: acc) = (k, g ++ [x]) :: acc := by
        simp [insertGrouped, h]
      simp only [List.foldl_cons, hstep]
      rw [ih k (g ++ [x]) acc]
      simp [List.filter_cons, h, List.append_assoc]
    · have hstep : insertGrouped (f x) x ((k, g) :: acc)
          = (k, g) :: insertGrouped (f x) x acc := by
        have : (k == f x) = false := by
          simp [beq_iff_eq]
          exact fun hk => h hk.symm
        simp [insertGrouped, this]
      simp only [List.foldl_cons, hstep]
      rw [ih k g (insertGrouped (f x) x acc)]
      simp [List.filter_cons, h, bne]

/-- Structural characterisation of `_.groupBy`: the first group collects the
head together with every later member sharing its key, and the remaining
groups are the grouping of the other members. -/
theorem groupByKey_cons {α : Type} (f : α → String) (x : α) (xs : List α) :
    groupByKey f (x :: xs)
      = (f x, x :: xs.filter (fun y => f y == f x)) ::
          groupByKey f (xs.filter (fun y => f y != f x)) := by
  show (x :: xs).foldl (fun a y => insertGrouped (f y) y a) [] = _
  have h0 : insertGrouped (f x) x ([] : List (String × List α)) = [(f x, [x])] := rfl
  simp only [List.foldl_cons, h0]
  have := foldl_insertGrouped f xs (f x) [x] []
  simpa [groupByKey] using this

/-- Every member of a group of `groupByKey f l` is a member of `l`. -/
theorem mem_of_mem_groupByKey {α : Type} (f : α → String) :
    ∀ (l : List α) (g : List α), g ∈ (groupByKey f l).map Prod.snd →
      ∀ x ∈ g, x ∈ l := by
  refine filteredInduction f
    (fun l => ∀ (g : List α), g ∈ (groupByKey f l).map Prod.snd → ∀ x ∈ g, x ∈ l) ?_ ?_
  · intro g hg
    simp [groupByKey] at hg
  · intro y ys ih g hg x hx
    rw [groupByKey_cons] at hg
    simp only [List.map_cons, List.mem_cons] at hg
    rcases hg with hg | hg
    · subst hg
      rcases hx with _ | hx
      · exact List.mem_cons_self _ _
      · exact List.mem_cons_of_mem _ (List.mem_of_mem_filter (by assumption))
    · have hxin := ih g hg x hx
      exact List.mem_cons_of_mem _ (List.mem_of_mem_filter hxin)

/-- Every group produced by `groupByKey` is non-empty. -/
theorem groupByKey_groups_ne_nil {α : Type} (f : α → String) :
    ∀ (l : List α) (g : List α), g ∈ (groupByKey f l).map Prod.snd → g ≠ [] := by
  refine filteredInduction f
    (fun l => ∀ (g : List α), g ∈ (groupByKey f l).map Prod.snd → g ≠ []) ?_ ?_
  · intro g hg
    simp [groupByKey] at hg
  · intro y ys ih g hg
    rw [groupByKey_cons] at hg
    simp only [List.map_cons, List.mem_cons] at hg
    rcases hg with hg | hg
    · subst hg; simp
    · exact ih g hg

/-- Filtering on the key value commutes with mapping to the key. -/
theorem map_filter_key {α : Type} (f : α → String) (k : String) :
    ∀ xs : List α,
      (xs.filter (fun y => f y != k)).map f = (xs.map f).filter (fun k2 => k2 != k) := by
  intro xs
  induction xs with
  | nil => rfl
  | cons z zs ihz =>
    by_cases hz : f z = k
    · simp [List.filter_cons, List.map_cons, hz, ihz]
    · have hb : (f z != k) = true := by simp [bne, beq_iff_eq, hz]
      simp only [List.map_cons, List.filter_cons, hb]
      simp [ihz]

/-- The keys of `groupByKey` are the distinct key values in first-seen
order: grouping preserves the order in which each distinct value first
occurs in the collection. -/
theorem groupByKey_keys_firstSeen {α : Type} (f : α → String) :
    ∀ l : List α, (groupByKey f l).map Prod.fst = firstSeen (l.map f) := by
  refine filteredInduction f
    (fun l => (groupByKey f l).map Prod.fst = firstSeen (l.map f)) ?_ ?_
  · simp [groupByKey, firstSeen]
  · intro x xs ih
    rw [groupByKey_cons]
    simp only [List.map_cons]
    rw [firstSeen, ih]
    congr 1
    rw [map_filter_key]

/-- Membership through the stable insertion step. -/
theorem mem_insertByLenDesc {α : Type} (g x : List α) :
    ∀ s : List (List α), x ∈ insertByLenDesc g s ↔ x = g ∨ x ∈ s := by
  intro s
  induction s with
  | nil => simp [insertByLenDesc]
  | cons h t ih =>
    by_cases hc : h.length ≤ g.length
    · simp [insertByLenDesc, hc, List.mem_cons, or_assoc]
    · simp only [insertByLenDesc, if_neg hc, List.mem_cons, ih]
      tauto

/-- Membership through the stable sort. -/
theorem mem_sortGroupsDesc {α : Type} (x : List α) :
    ∀ gs : List (List α), x ∈ sortGroupsDesc gs ↔ x ∈ gs := by
  intro gs
  induction gs with
  | nil => simp [sortGroupsDesc]
  | cons g rest ih =>
    simp [sortGroupsDesc, mem_insertByLenDesc, ih]

/-- Every group length is bounded by `maxLen`. -/
theorem length_le_maxLen {α : Type} {g : List α} :
    ∀ {gs : List (List α)}, g ∈ gs → g.length ≤ maxLen gs := by
  intro gs
  induction gs with
  | nil => intro h; cases h
  | cons h t ih =>
    intro hg
    rcases List.mem_cons.mp hg with hg | hg
    · subst hg; exact Nat.le_max_left _ _
    · exact Nat.le_trans (ih hg) (Nat.le_max_right _ _)

/-- `maxLen` is bounded by any common bound on the group lengths. -/
theorem maxLen_le {α : Type} {n : Nat} :
    ∀ {gs : List (List α)}, (∀ g ∈ gs, g.length ≤ n) → maxLen gs ≤ n := by
  intro gs
  induction gs with
  | nil => intro _; exact Nat.zero_le n
  | cons h t ih =>
    intro hb
    have h1 : h.length ≤ n := hb h (List.mem_cons_self _ _)
    have h2 : maxLen t ≤ n := ih (fun g hg => hb g (List.mem_cons_of_mem _ hg))
    exact max_le h1 h2

/-- The head of the stable descending sort is the first group of maximal
length: the sort is stable, so ties between equally-sized groups are broken
by position in the input. -/
theorem sortGroupsDesc_head {α : Type} :
    ∀ gs : List (List α),
      (sortGroupsDesc gs).head? = gs.find? (fun g => decide (maxLen gs ≤ g.length)) := by
  intro gs
  induction gs with
  | nil => rfl
  | cons g rest ih =>
    have hmax : maxLen (g :: rest) = max g.length (maxLen rest) := rfl
    by_cases hg : maxLen rest ≤ g.length
    · have hself : maxLen (g :: rest) ≤ g.length := by
        rw [hmax]; exact max_le (Nat.le_refl _) hg
      rw [List.find?_cons_of_pos _ (by simpa using hself)]
      show (insertByLenDesc g (sortGroupsDesc rest)).head? = some g
      cases hsr : sortGroupsDesc rest with
      | nil => rfl
      | cons h t =>
        have hmem : h ∈ rest := by
          have : h ∈ sortGroupsDesc rest := by rw [hsr]; exact List.mem_cons_self _ _
          exact (mem_sortGroupsDesc h rest).mp this
        have hle : h.length ≤ g.length := Nat.le_trans (length_le_maxLen hmem) hg
        show (if h.length ≤ g.length then g :: h :: t else h :: insertByLenDesc g t).head? = some g
        rw [if_pos hle]
        rfl
    · push_neg at hg
      have hmaxeq : maxLen (g :: rest) = maxLen rest := by
        rw [hmax]; exact Nat.max_eq_right (Nat.le_of_lt hg)
      have hgfail : ¬ (decide (maxLen (g :: rest) ≤ g.length) = true) := by
        simp only [decide_eq_true_eq, hmaxeq]
        exact Nat.not_le.mpr hg
      rw [@List.find?_cons_of_neg _ (fun g2 => decide (maxLen (g :: rest) ≤ g2.length)) g rest hgfail]
      have hfind : rest.find? (fun g2 => decide (maxLen (g :: rest) ≤ g2.length))
          = rest.find? (fun g2 => decide (maxLen rest ≤ g2.length)) := by
        rw [hmaxeq]
      rw [hfind, ← ih]
      cases hsr : sortGroupsDesc rest with
      | nil =>
        exfalso
        have : rest = [] := by
          cases rest with
          | nil => rfl
          | cons a b =>
            exfalso
            have : a ∈ sortGroupsDesc (a :: b) :=
              (mem_sortGroupsDesc a (a :: b)).mpr (List.mem_cons_self _ _)
            rw [hsr] at this
            cases this
        subst this
        exact Nat.not_lt.mpr (Nat.zero_le _) hg
      | cons h t =>
        have hmem : h ∈ rest := by
          have : h ∈ sortGroupsDesc rest := by rw [hsr]; exact List.mem_cons_self _ _
          exact (mem_sortGroupsDesc h rest).mp this
        have hh : maxLen rest ≤ h.length := by
          have := ih
          rw [hsr] at this
          have hfound := this.symm
          rw [List.head?_cons] at this
          have := List.find?_some this.symm
          simpa using this
        have hnle : ¬ h.length ≤ g.length := by
          push_neg
          exact Nat.lt_of_lt_of_le hg hh
        show (insertByLenDesc g (sortGroupsDesc rest)).head? = (h :: t).head?
        rw [hsr]
        show (if h.length ≤ g.length then g :: h :: t else h :: insertByLenDesc g t).head? = _
        rw [if_neg hnle]
        rfl

/-- Inserting a group does not disturb the relative order of the groups of
any fixed length: each length class of the output of the insertion step is
the corresponding length class of `g :: s`. -/
theorem filter_len_insertByLenDesc {α : Type} (g : List α) (n : Nat) :
    ∀ s : List (List α),
      (insertByLenDesc g s).filter (fun h => h.length == n)
        = (g :: s).filter (fun h => h.length == n) := by
  intro s
  induction s with
  | nil => rfl
  | cons h t ih =>
    by_cases hc : h.length ≤ g.length
    · show ((if h.length ≤ g.length then g :: h :: t else h :: insertByLenDesc g t).filter _) = _
      rw [if_pos hc]
    · show ((if h.length ≤ g.length then g :: h :: t else h :: insertByLenDesc g t).filter _) = _
      rw [if_neg hc]
      by_cases hgn : g.length = n
      · have hhn : (h.length == n) = false := by
          simp only [beq_eq_false_iff_ne, ne_eq]
          omega
        simp only [List.filter_cons, hhn, ih]
        simp [List.filter_cons, hgn, hhn]
      · by_cases hhn : h.length = n
        · simp only [List.filter_cons, ih]
          simp [List.filter_cons, hgn, hhn]
        · simp only [List.filter_cons, ih]
          simp [List.filter_cons, hgn, hhn]

/-- Stability of the sort: each length class of the sorted output is the
length class of the input, in input order. -/
theorem filter_len_sortGroupsDesc {α : Type} (n : Nat) :
    ∀ gs : List (List α),
      (sortGroupsDesc gs).filter (fun h => h.length == n)
        = gs.filter (fun h => h.length == n) := by
  intro gs
  induction gs with
  | nil => rfl
  | cons g rest ih =>
    show ((insertByLenDesc g (sortGroupsDesc rest)).filter _) = _
    rw [filter_len_insertByLenDesc, List.filter_cons, List.filter_cons, ih]

/-- The insertion step keeps the list sorted by descending length. -/
theorem pairwise_insertByLenDesc {α : Type} (g : List α) :
    ∀ s : List (List α),
      s.Pairwise (fun a b => b.length ≤ a.length) →
      (insertByLenDesc g s).Pairwise (fun a b => b.length ≤ a.length) := by
  intro s
  induction s with
  | nil => intro _; simp [insertByLenDesc]
  | cons h t ih =>
    intro hp
    rcases List.pairwise_cons.mp hp with ⟨hhb, hpt⟩
    by_cases hc : h.length ≤ g.length
    · show List.Pairwise _ (if h.length ≤ g.length then g :: h :: t else h :: insertByLenDesc g t)
      rw [if_pos hc]
      refine List.pairwise_cons.mpr ⟨?_, hp⟩
      intro b hb
      rcases List.mem_cons.mp hb with hb | hb
      · subst hb; exact hc
      · exact Nat.le_trans (hhb b hb) hc
    · show List.Pairwise _ (if h.length ≤ g.length then g :: h :: t else h :: insertByLenDesc g t)
      rw [if_neg hc]
      refine List.pairwise_cons.mpr ⟨?_, ih hpt⟩
      intro b hb
      rcases (mem_insertByLenDesc g b t).mp hb with hb | hb
      · subst hb; exact Nat.le_of_lt (Nat.lt_of_not_le hc)
      · exact hhb b hb

/-- The output of `sortGroupsDesc` is sorted by descending length. -/
theorem pairwise_sortGroupsDesc {α : Type} :
    ∀ gs : List (List α),
      (sortGroupsDesc gs).Pairwise (fun a b => b.length ≤ a.length) := by
  intro gs
  induction gs with
  | nil => simp [sortGroupsDesc]
  | cons g rest ih => exact pairwise_insertByLenDesc g _ ih

/-- When every part is non-empty, the head of the flattening is the head of
the first part. -/
theorem flatten_head_of_ne_nil {α : Type} :
    ∀ gs : List (List α), (∀ g ∈ gs, g ≠ []) →
      gs.flatten.head? = gs.head?.bind List.head? := by
  intro gs hne
  cases gs with
  | nil => rfl
  | cons g rest =>
    have hg : g ≠ [] := hne g (List.mem_cons_self _ _)
    cases g with
    | nil => exact absurd rfl hg
    | cons x xs => rfl

/-- Removing the members keyed `f x` does not change the count of any other
key. -/
theorem keyCount_filter_ne {α : Type} (f : α → String) (x : α) (k : String)
    (hk : k ≠ f x) :
    ∀ xs : List α, keyCount f (xs.filter (fun y => f y != f x)) k = keyCount f xs k := by
  intro xs
  induction xs with
  | nil => rfl
  | cons z zs ih =>
    by_cases hz : f z = f x
    · have h1 : (f z != f x) = false := by simp [bne, beq_iff_eq, hz]
      have h2 : (f z == k) = false := by
        simp only [beq_eq_false_iff_ne, ne_eq, hz]
        exact fun h => hk h.symm
      simp only [keyCount, List.filter_cons, h1, h2]
      simpa [keyCount] using ih
    · have h1 : (f z != f x) = true := by simp [bne, beq_iff_eq, hz]
      by_cases h2 : f z = k
      · have h4 : (f z == k) = true := by simp [beq_iff_eq, h2]
        simp only [keyCount, List.filter_cons, h1, h4, if_true, List.length_cons]
        have hih := ih
        simp only [keyCount] at hih
        omega
      · have h3 : (f z == k) = false := by simp [beq_iff_eq, h2]
        simp only [keyCount, List.filter_cons, h1, h3]
        simpa [keyCount, List.filter_cons, h3] using ih

/-- `find?` against a predicate that fails on every removed element agrees
with `find?` on the filtered list against a pointwise-equal predicate. -/
theorem find?_congr_filter {α : Type} (p p2 q : α → Bool)
    (h1 : ∀ y, q y = false → p y = false)
    (h2 : ∀ y, q y = true → p y = p2 y) :
    ∀ ys : List α, ys.find? p = (ys.filter q).find? p2 := by
  intro ys
  induction ys with
  | nil => rfl
  | cons y t ih =>
    by_cases hq : q y = true
    · rw [List.filter_cons_of_pos hq]
      by_cases hp : p y = true
      · rw [List.find?_cons_of_pos _ hp, List.find?_cons_of_pos _ ((h2 y hq) ▸ hp)]
      · rw [List.find?_cons_of_neg _ hp, List.find?_cons_of_neg _ ((h2 y hq) ▸ hp), ih]
    · have hq0 : q y = false := Bool.eq_false_iff.mpr hq
      have hp0 : p y = false := h1 y hq0
      rw [List.filter_cons_of_neg (by simp [hq0]),
        List.find?_cons_of_neg _ (by simp [hp0]), ih]

/-- `find?` only depends on the pointwise values of its predicate. -/
theorem find?_congr_pred {α : Type} (p q : α → Bool) :
    ∀ l : List α, (∀ x ∈ l, p x = q x) → l.find? p = l.find? q := by
  intro l
  induction l with
  | nil => intro _; rfl
  | cons x t ih =>
    intro h
    have hx := h x (List.mem_cons_self _ _)
    by_cases hp : p x = true
    · rw [List.find?_cons_of_pos _ hp, List.find?_cons_of_pos _ (hx ▸ hp)]
    · rw [List.find?_cons_of_neg _ hp, List.find?_cons_of_neg _ (hx ▸ hp)]
      exact ih (fun y hy => h y (List.mem_cons_of_mem _ hy))

/-- Scanning the groups for the first one with at least `N` members and
taking its head is the same as scanning the collection for the first member
whose key has at least `N` occurrences. -/
theorem groupByKey_find?_head {α : Type} (f : α → String) (N : Nat) :
    ∀ l : List α,
      (((groupByKey f l).map Prod.snd).find? (fun g => decide (N ≤ g.length))).bind List.head?
        = l.find? (fun x => decide (N ≤ keyCount f l (f x))) := by
  refine filteredInduction f (fun l =>
    (((groupByKey f l).map Prod.snd).find? (fun g => decide (N ≤ g.length))).bind List.head?
      = l.find? (fun x => decide (N ≤ keyCount f l (f x)))) ?_ ?_
  · rfl
  · intro x xs ih
    rw [groupByKey_cons]
    simp only [List.map_cons]
    have hlen : (x :: xs.filter (fun y => f y == f x)).length
        = keyCount f (x :: xs) (f x) := by
      simp [keyCount, List.filter_cons]
    by_cases hN : N ≤ keyCount f (x :: xs) (f x)
    · rw [List.find?_cons_of_pos _ (by simpa [hlen] using hN)]
      rw [List.find?_cons_of_pos _ (by simpa using hN)]
      rfl
    · rw [List.find?_cons_of_neg _ (by simpa [hlen] using hN)]
      rw [List.find?_cons_of_neg _ (by simpa using hN)]
      rw [ih]
      refine (find?_congr_filter _ _ (fun y => f y != f x) ?_ ?_ xs).symm
      · intro y hy
        have hyx : f y = f x := by simpa using hy
        rw [hyx]
        simpa using hN
      · intro y hy
        have hyx : f y ≠ f x := by
          simpa [bne, beq_iff_eq] using hy
        have := keyCount_filter_ne f x (f y) hyx xs
        rw [this]
        have hcnt : keyCount f (x :: xs) (f y) = keyCount f xs (f y) := by
          have hne : (f x == f y) = false := by
            simp only [beq_eq_false_iff_ne, ne_eq]
            exact fun h => hyx h.symm
          simp [keyCount, List.filter_cons, hne]
        rw [hcnt]

/-- Every group of `groupByKey` has as its length the key count of one of
the collection's members. -/
theorem groupByKey_length_is_keyCount {α : Type} (f : α → String) :
    ∀ l : List α, ∀ g ∈ (groupByKey f l).map Prod.snd,
      ∃ x ∈ l, g.length = keyCount f l (f x) := by
  refine filteredInduction f (fun l =>
    ∀ g ∈ (groupByKey f l).map Prod.snd, ∃ x ∈ l, g.length = keyCount f l (f x)) ?_ ?_
  · intro g hg
    simp [groupByKey] at hg
  · intro x xs ih g hg
    rw [groupByKey_cons] at hg
    simp only [List.map_cons, List.mem_cons] at hg
    rcases hg with hg | hg
    · refine ⟨x, List.mem_cons_self _ _, ?_⟩
      subst hg
      simp [keyCount, List.filter_cons]
    · rcases ih g hg with ⟨y, hy, hlen⟩
      have hyx : f y ≠ f x := by
        have := (List.mem_filter.mp hy).2
        simpa [bne, beq_iff_eq] using this
      refine ⟨y, List.mem_cons_of_mem _ (List.mem_of_mem_filter hy), ?_⟩
      rw [hlen, keyCount_filter_ne f x (f y) hyx xs]
      have hne : (f x == f y) = false := by
        simp only [beq_eq_false_iff_ne, ne_eq]
        exact fun h => hyx h.symm
      simp [keyCount, List.filter_cons, hne]

/-- Every member's key count is the length of one of the groups. -/
theorem keyCount_is_groupByKey_length {α : Type} (f : α → String) :
    ∀ l : List α, ∀ x ∈ l,
      ∃ g ∈ (groupByKey f l).map Prod.snd, keyCount f l (f x) = g.length := by
  refine filteredInduction f (fun l =>
    ∀ x ∈ l, ∃ g ∈ (groupByKey f l).map Prod.snd, keyCount f l (f x) = g.length) ?_ ?_
  · intro x hx
    cases hx
  · intro y ys ih x hx
    rw [groupByKey_cons]
    simp only [List.map_cons]
    by_cases hxy : f x = f y
    · refine ⟨y :: ys.filter (fun z => f z == f y), List.mem_cons_self _ _, ?_⟩
      rw [hxy]
      simp [keyCount, List.filter_cons]
    · have hxmem : x ∈ ys := by
        rcases List.mem_cons.mp hx with h | h
        · exact absurd (h ▸ rfl) hxy
        · exact h
      have hxf : x ∈ ys.filter (fun z => f z != f y) := by
        refine List.mem_filter.mpr ⟨hxmem, ?_⟩
        simp [bne, beq_iff_eq, hxy]
      rcases ih x hxf with ⟨g, hg, hcnt⟩
      refine ⟨g, List.mem_cons_of_mem _ hg, ?_⟩
      rw [← hcnt, keyCount_filter_ne f y (f x) hxy ys]
      have hne : (f y == f x) = false := by
        simp only [beq_eq_false_iff_ne, ne_eq]
        exact fun h => hxy h.symm
      simp [keyCount, List.filter_cons, hne]

/-- Membership through the ascending insertion step. -/
theorem mem_insertIndexAsc {α : Type} (p x : String × List α) :
    ∀ s : List (String × List α), x ∈ insertIndexAsc p s ↔ x = p ∨ x ∈ s := by
  intro s
  induction s with
  | nil => simp [insertIndexAsc]
  | cons q t ih =>
    by_cases hc : arrayIndexVal p.fst ≤ arrayIndexVal q.fst
    · simp [insertIndexAsc, hc, List.mem_cons, or_assoc]
    · simp only [insertIndexAsc, if_neg hc, List.mem_cons, ih]
      tauto

/-- Membership through the ascending sort of index-keyed entries. -/
theorem mem_sortIndexAsc {α : Type} (x : String × List α) :
    ∀ s : List (String × List α), x ∈ sortIndexAsc s ↔ x ∈ s := by
  intro s
  induction s with
  | nil => simp [sortIndexAsc]
  | cons p rest ih => simp [sortIndexAsc, mem_insertIndexAsc, ih]

/-- `Object.values` enumerates exactly the groups of the object, whatever
the key order. -/
theorem mem_objectValues {α : Type} (assoc : List (String × List α)) (g : List α) :
    g ∈ objectValues assoc ↔ g ∈ assoc.map Prod.snd := by
  constructor
  · intro hg
    rcases List.mem_map.mp hg with ⟨p, hp, hps⟩
    rcases List.mem_append.mp hp with hp | hp
    · have := List.mem_of_mem_filter ((mem_sortIndexAsc p _).mp hp)
      exact List.mem_map.mpr ⟨p, this, hps⟩
    · exact List.mem_map.mpr ⟨p, List.mem_of_mem_filter hp, hps⟩
  · intro hg
    rcases List.mem_map.mp hg with ⟨p, hp, hps⟩
    refine List.mem_map.mpr ⟨p, List.mem_append.mpr ?_, hps⟩
    by_cases hi : isArrayIndexKey p.fst = true
    · exact Or.inl ((mem_sortIndexAsc p _).mpr (List.mem_filter.mpr ⟨hp, hi⟩))
    · exact Or.inr (List.mem_filter.mpr ⟨hp, by simp [hi]⟩)

/-- When no key is array-index-like, the enumeration order of
`Object.values` is exactly the insertion (first-seen) order. -/
theorem objectValues_of_no_index {α : Type} (assoc : List (String × List α))
    (h : ∀ p ∈ assoc, isArrayIndexKey p.fst = false) :
    objectValues assoc = assoc.map Prod.snd := by
  have h1 : assoc.filter (fun p => isArrayIndexKey p.fst) = [] := by
    rw [List.filter_eq_nil_iff]
    intro p hp
    simp [h p hp]
  have h2 : assoc.filter (fun p => !isArrayIndexKey p.fst) = assoc := by
    rw [List.filter_eq_self]
    intro p hp
    simp [h p hp]
  rw [objectValues, h1, h2]
  rfl

/-- Every key of `groupByKey` is the key value of one of the collection's
members. -/
theorem groupByKey_keys_mem {α : Type} (f : α → String) :
    ∀ l : List α, ∀ p ∈ groupByKey f l, ∃ x ∈ l, p.fst = f x := by
  refine filteredInduction f (fun l => ∀ p ∈ groupByKey f l, ∃ x ∈ l, p.fst = f x) ?_ ?_
  · intro p hp
    simp [groupByKey] at hp
  · intro x xs ih p hp
    rw [groupByKey_cons] at hp
    rcases List.mem_cons.mp hp with hp | hp
    · exact ⟨x, List.mem_cons_self _ _, by rw [hp]⟩
    · rcases ih p hp with ⟨y, hy, hpy⟩
      exact ⟨y, List.mem_cons_of_mem _ (List.mem_of_mem_filter hy), hpy⟩

/-- The head of the stable descending sort of the insertion-ordered groups
is the earliest candidate (in candidate order, hence in source priority
order) whose `field` group has maximal size. -/
theorem sorted_groups_head (field : LocationInfoWithProvider → String)
    (sources : List LocationInfoWithProvider) :
    ((sortGroupsDesc ((groupByKey field (voteFiltered field sources)).map Prod.snd)).flatten).head?
      = (voteFiltered field sources).find? (fun s =>
          (voteFiltered field sources).all (fun t =>
            decide (keyCount field (voteFiltered field sources) (field t)
              ≤ keyCount field (voteFiltered field sources) (field s)))) := by
  set l := voteFiltered field sources with hl
  set gs := (groupByKey field l).map Prod.snd with hgs
  have hne : ∀ g ∈ sortGroupsDesc gs, g ≠ [] := by
    intro g hg
    exact groupByKey_groups_ne_nil field l g ((mem_sortGroupsDesc g gs).mp hg)
  have h1 : ((sortGroupsDesc gs).flatten).head?
      = (sortGroupsDesc gs).head?.bind List.head? :=
    flatten_head_of_ne_nil _ hne
  rw [h1, sortGroupsDesc_head]
  rw [groupByKey_find?_head field (maxLen gs) l]
  refine find?_congr_pred _ _ l ?_
  intro x hx
  have hdir : maxLen gs ≤ keyCount field l (field x)
      ↔ ∀ t ∈ l, keyCount field l (field t) ≤ keyCount field l (field x) := by
    constructor
    · intro h t ht
      rcases keyCount_is_groupByKey_length field l t ht with ⟨g, hg, hcnt⟩
      exact Nat.le_trans (hcnt ▸ length_le_maxLen hg) h
    · intro h
      refine maxLen_le ?_
      intro g hg
      rcases groupByKey_length_is_keyCount field l g hg with ⟨y, hy, hlen⟩
      exact hlen ▸ h y hy
  rcases Decidable.em (maxLen gs ≤ keyCount field l (field x)) with h | h
  · have h2 : ∀ t ∈ l, keyCount field l (field t) ≤ keyCount field l (field x) :=
      hdir.mp h
    rw [decide_eq_true h]
    symm
    rw [List.all_eq_true]
    intro t ht
    exact decide_eq_true (h2 t ht)
  · rw [decide_eq_false h]
    symm
    rw [← Bool.not_eq_true, List.all_eq_true]
    intro hall
    exact h (hdir.mpr (fun t ht => of_decide_eq_true (hall t ht)))

/-- Under the no-array-index-keys proviso, the head of the ranked candidate
sequence is the earliest candidate of a maximal group. -/
theorem rankCandidates_head_of_no_index (field : LocationInfoWithProvider → String)
    (sources : List LocationInfoWithProvider)
    (hnum : ∀ s ∈ voteFiltered field sources, isArrayIndexKey (field s) = false) :
    (rankCandidates field sources).head?
      = (voteFiltered field sources).find? (fun s =>
          (voteFiltered field sources).all (fun t =>
            decide (keyCount field (voteFiltered field sources) (field t)
              ≤ keyCount field (voteFiltered field sources) (field s)))) := by
  have hkeys : ∀ p ∈ groupByKey field (voteFiltered field sources),
      isArrayIndexKey p.fst = false := by
    intro p hp
    rcases groupByKey_keys_mem field (voteFiltered field sources) p hp with ⟨x, hx, hpx⟩
    rw [hpx]
    exact hnum x hx
  rw [rankCandidates, objectValues_of_no_index _ hkeys]
  exact sorted_groups_head field sources

/-- Two lists of groups with the same members have the same maximal
length. -/
theorem maxLen_congr {α : Type} (l1 l2 : List (List α))
    (h : ∀ g, g ∈ l1 ↔ g ∈ l2) : maxLen l1 = maxLen l2 := by
  refine Nat.le_antisymm ?_ ?_
  · exact maxLen_le (fun g hg => length_le_maxLen ((h g).mp hg))
  · exact maxLen_le (fun g hg => length_le_maxLen ((h g).mpr hg))

/-- Every group of `groupByKey` consists of the members carrying one key of
the collection, and its length is that key's count. -/
theorem groupByKey_group_key {α : Type} (f : α → String) :
    ∀ l : List α, ∀ g ∈ (groupByKey f l).map Prod.snd,
      ∃ x ∈ l, (∀ y ∈ g, f y = f x) ∧ g.length = keyCount f l (f x) := by
  refine filteredInduction f (fun l =>
    ∀ g ∈ (groupByKey f l).map Prod.snd,
      ∃ x ∈ l, (∀ y ∈ g, f y = f x) ∧ g.length = keyCount f l (f x)) ?_ ?_
  · intro g hg
    simp [groupByKey] at hg
  · intro x xs ih g hg
    rw [groupByKey_cons] at hg
    simp only [List.map_cons, List.mem_cons] at hg
    rcases hg with hg | hg
    · refine ⟨x, List.mem_cons_self _ _, ?_, ?_⟩
      · subst hg
        intro y hy
        rcases List.mem_cons.mp hy with hy | hy
        · rw [hy]
        · have := (List.mem_filter.mp hy).2
          simpa [beq_iff_eq] using this
      · subst hg
        simp [keyCount, List.filter_cons]
    · rcases ih g hg with ⟨y, hy, hmemkey, hlen⟩
      have hyx : f y ≠ f x := by
        have := (List.mem_filter.mp hy).2
        simpa [bne, beq_iff_eq] using this
      refine ⟨y, List.mem_cons_of_mem _ (List.mem_of_mem_filter hy), hmemkey, ?_⟩
      rw [hlen, keyCount_filter_ne f x (f y) hyx xs]
      have hne : (f x == f y) = false := by
        simp only [beq_eq_false_iff_ne, ne_eq]
        exact fun h => hyx h.symm
      simp [keyCount, List.filter_cons, hne]

/-- Whatever the enumeration order of the groups, the head of the ranked
candidate sequence belongs to a group of maximal size. -/
theorem rank_head_max_group (field : LocationInfoWithProvider → String)
    (sources : List LocationInfoWithProvider) (best : LocationInfoWithProvider)
    (h : (rankCandidates field sources).head? = some best) :
    ∃ g ∈ (groupByKey field (voteFiltered field sources)).map Prod.snd,
      best ∈ g
      ∧ ∀ g2 ∈ (groupByKey field (voteFiltered field sources)).map Prod.snd,
          g2.length ≤ g.length := by
  set gs := (groupByKey field (voteFiltered field sources)).map Prod.snd with hgs
  set ov := objectValues (groupByKey field (voteFiltered field sources)) with hov
  have hmemov : ∀ g, g ∈ ov ↔ g ∈ gs := fun g =>
    mem_objectValues (groupByKey field (voteFiltered field sources)) g
  have hne : ∀ g ∈ sortGroupsDesc ov, g ≠ [] := by
    intro g hg
    exact groupByKey_groups_ne_nil field _ g
      ((hmemov g).mp ((mem_sortGroupsDesc g ov).mp hg))
  have h1 : (rankCandidates field sources).head?
      = (sortGroupsDesc ov).head?.bind List.head? := by
    rw [rankCandidates]
    exact flatten_head_of_ne_nil _ hne
  rw [h1, sortGroupsDesc_head] at h
  cases hfind : ov.find? (fun g => decide (maxLen ov ≤ g.length)) with
  | none => rw [hfind] at h; cases h
  | some g0 =>
    rw [hfind] at h
    have hg0ov := List.mem_of_find?_eq_some hfind
    have hg0max : maxLen ov ≤ g0.length := by
      have := List.find?_some hfind
      simpa using this
    have hbestg0 : best ∈ g0 := by
      cases g0 with
      | nil => cases h
      | cons a t =>
        have ha : a = best := by
          have : some a = some best := h
          injection this
        rw [← ha]
        exact List.mem_cons_self _ _
    refine ⟨g0, (hmemov g0).mp hg0ov, hbestg0, ?_⟩
    intro g2 hg2
    exact Nat.le_trans (length_le_maxLen ((hmemov g2).mpr hg2)) hg0max

/-- Every ranked candidate is one of the filtered candidates. -/
theorem mem_voteFiltered_of_mem_rankCandidates
    (field : LocationInfoWithProvider → String)
    (sources : List LocationInfoWithProvider) (s : LocationInfoWithProvider) :
    s ∈ rankCandidates field sources → s ∈ voteFiltered field sources := by
  intro hs
  rw [rankCandidates] at hs
  rcases List.mem_flatten.mp hs with ⟨g, hg, hsg⟩
  have hg2 := (mem_sortGroupsDesc g _).mp hg
  have hg3 := (mem_objectValues _ g).mp hg2
  exact mem_of_mem_groupByKey field (voteFiltered field sources) g hg3 s hsg

/-- Unfolding a successful `bestMatch`. -/
theorem bestMatch_eq_some (field : LocationInfoWithProvider → String)
    (sources : List LocationInfoWithProvider) (m : LocationInfo)
    (r : List LocationInfoWithProvider) :
    bestMatch field sources = some (m, r) →
      ∃ best, (rankCandidates field sources).head? = some best
        ∧ best.provider ≠ Provider.fastly
        ∧ m = best.toLocationInfo
        ∧ r = rankCandidates field sources := by
  intro h
  rw [bestMatch] at h
  cases hh : (rankCandidates field sources).head? with
  | none => rw [hh] at h; cases h
  | some best =>
    rw [hh] at h
    have h2 : (if best.provider = Provider.fastly then none
        else some (best.toLocationInfo, rankCandidates field sources)) = some (m, r) := h
    by_cases hf : best.provider = Provider.fastly
    · rw [if_pos hf] at h2; cases h2
    · rw [if_neg hf] at h2
      injection h2 with h2
      injection h2 with hm hr
      exact ⟨best, rfl, hf, hm.symm, hr.symm⟩

/-- Two distinct keys count disjoint members. -/
theorem keyCount_add_le {α : Type} (f : α → String) (k1 k2 : String)
    (hk : k1 ≠ k2) :
    ∀ l : List α, keyCount f l k1 + keyCount f l k2 ≤ l.length := by
  intro l
  induction l with
  | nil => exact Nat.le_refl 0
  | cons x xs ih =>
    have hih := ih
    simp only [keyCount] at hih
    by_cases h1 : f x = k1
    · have h1b : (f x == k1) = true := by simp [beq_iff_eq, h1]
      have h2b : (f x == k2) = false := by
        simp only [beq_eq_false_iff_ne, ne_eq, h1]
        exact hk
      simp [keyCount, List.filter_cons, h1b, h2b]
      omega
    · have h1b : (f x == k1) = false := by simp [beq_iff_eq, h1]
      by_cases h2 : f x = k2
      · have h2b : (f x == k2) = true := by simp [beq_iff_eq, h2]
        simp [keyCount, List.filter_cons, h1b, h2b]
        omega
      · have h2b : (f x == k2) = false := by simp [beq_iff_eq, h2]
        simp [keyCount, List.filter_cons, h1b, h2b]
        omega

/-- A key with a positive count has a member carrying it. -/
theorem exists_mem_of_keyCount_pos {α : Type} (f : α → String) (k : String)
    (l : List α) (h : 0 < keyCount f l k) : ∃ x ∈ l, f x = k := by
  unfold keyCount at h
  cases hf : l.filter (fun y => f y == k) with
  | nil => rw [hf] at h; cases h
  | cons x t =>
    have hx : x ∈ l.filter (fun y => f y == k) := by rw [hf]; exact List.mem_cons_self _ _
    rcases List.mem_filter.mp hx with ⟨hxl, hxk⟩
    exact ⟨x, hxl, by simpa [beq_iff_eq] using hxk⟩

/-- A key count never exceeds the collection length. -/
theorem keyCount_le_length {α : Type} (f : α → String) (k : String) (l : List α) :
    keyCount f l k ≤ l.length :=
  List.length_filter_le _ _

/-- The step-4 failure message can never collide with the VPN message. -/
theorem unresolvable_msg_ne (addr : String) :
    "unresolvable geoip: " ++ addr ≠ "vpn detected" := by
  intro h
  have h2 := congrArg String.length h
  rw [String.length_append] at h2
  have hl1 : ("unresolvable geoip: " : String).length = 20 := rfl
  have hl2 : ("vpn detected" : String).length = 12 := rfl
  rw [hl1, hl2] at h2
  omega

/-- A `lookupWithCache` call whose `cache.get` produced no value behaves as
the cache-miss path. -/
theorem lookupWithCache_of_get_missing {T : Type} (truthy : T → Bool)
    (cb : CacheBehavior T) (fn : Except String T)
    (h : ∀ v, cb.getOutcome ≠ Except.ok (some v)) :
    lookupWithCache truthy cb fn = cacheMissPath fn := by
  rw [lookupWithCache]
  cases hg : cb.getOutcome with
  | error e => rfl
  | ok v =>
    cases v with
    | none => rfl
    | some c => exact absurd hg (h c)

/-- The result of `cacheMissPath` is the computation's own outcome. -/
theorem cacheMissPath_result {T : Type} (fn : Except String T) :
    (cacheMissPath fn).result = fn := by
  cases fn with
  | error e => rfl
  | ok info => rfl

/-- Decidable equality of settled outcomes, for evaluating the pipeline at
concrete inputs. -/
instance exceptDecEq {ε α : Type} [DecidableEq ε] [DecidableEq α] :
    DecidableEq (Except ε α) := fun x y =>
  match x, y with
  | Except.ok a, Except.ok b =>
    if h : a = b then isTrue (by rw [h])
    else isFalse (fun hh => h (by injection hh))
  | Except.error a, Except.error b =>
    if h : a = b then isTrue (by rw [h])
    else isFalse (fun hh => h (by injection hh))
  | Except.ok _, Except.error _ => isFalse (fun hh => Except.noConfusion hh)
  | Except.error _, Except.ok _ => isFalse (fun hh => Except.noConfusion hh)

/-- Test fixture: an environment whose allowlist rejects every address. -/
def envT : GeoEnv :=
  { isAddrWhitelisted := fun _ => false,
    getRegionByCountry := fun _ => "Northern America",
    normalizeRegionName := fun _ => "northern america" }

/-- Test fixture: an environment whose allowlist accepts every address. -/
def envWL : GeoEnv :=
  { isAddrWhitelisted := fun _ => true,
    getRegionByCountry := fun _ => "Northern America",
    normalizeRegionName := fun _ => "northern america" }

/-- Test fixture: a candidate record with the given provider, city fields and
network fields. -/
def mkCity (p : Provider) (city ncity : String) (asn : Nat) (net nnet : String) :
    LocationInfoWithProvider :=
  { continent := "NA", country := "US", state := some "TX", city := city,
    normalizedCity := ncity, asn := asn, latitude := 32, longitude := -96,
    network := net, normalizedNetwork := nnet, provider := p }

/-- Test fixture for the majority vote: three sources agree on dallas, the
other two disagree. -/
def c2sources : List LocationInfoWithProvider :=
  [ mkCity Provider.ip2location "Dallas" "dallas" 1 "n1" "n1",
    mkCity Provider.ipmap "Dallas" "dallas" 2 "n2" "n2",
    mkCity Provider.maxmind "Dallas" "dallas" 3 "n3" "n3",
    mkCity Provider.ipinfo "Austin" "austin" 4 "n4" "n4",
    mkCity Provider.fastly "El Paso" "el paso" 5 "n5" "n5" ]

/-- Fixture for C1: a tie between an ordinary city key and an
array-index-like normalizedCity ("1770"), both groups of size one. -/
def c1sources : List LocationInfoWithProvider :=
  [ mkCity Provider.ip2location "Dallas" "dallas" 1 "n1" "n1",
    mkCity Provider.ipmap "1770" "1770" 2 "n2" "n2" ]

/-- Counterexample for C1: with an array-index-like normalizedCity in play,
the plain object behind `_.groupBy` enumerates that group first (ECMAScript
own-property order), so the vote's ranked head is the lower-priority ipmap
candidate, not the earliest maximal-group candidate that the first-seen /
priority tie-break promises. -/
theorem tie_break_counterexample :
    (rankCandidates (fun s => s.normalizedCity) c1sources).head?
        = some (mkCity Provider.ipmap "1770" "1770" 2 "n2" "n2")
    ∧ (voteFiltered (fun s => s.normalizedCity) c1sources).find? (fun s =>
          (voteFiltered (fun s => s.normalizedCity) c1sources).all (fun t =>
            decide (keyCount (fun s2 => s2.normalizedCity)
                (voteFiltered (fun s2 => s2.normalizedCity) c1sources) t.normalizedCity
              ≤ keyCount (fun s2 => s2.normalizedCity)
                (voteFiltered (fun s2 => s2.normalizedCity) c1sources) s.normalizedCity)))
        = some (mkCity Provider.ip2location "Dallas" "dallas" 1 "n1" "n1")
    ∧ mkCity Provider.ipmap "1770" "1770" 2 "n2" "n2"
        ≠ mkCity Provider.ip2location "Dallas" "dallas" 1 "n1" "n1" :=
  ⟨by decide, by decide, by decide⟩

/-- C1 (amended): provided no participating normalizedCity value is an
array-index-like string (the canonical decimal form of an integer below
2^32 - 1), the groups enumerate in insertion order, grouping preserves
first-seen key order, the sort by descending group size is stable (each
length class keeps its input order) and sorted, and the winner (the head of
the ranked sequence) is the earliest candidate — in candidate order, which
is the fixed scan order ip2location > ipmap > maxmind > ipinfo > fastly —
belonging to a group of maximal size, so equal-size ties go to the group
whose earliest member has the highest source priority.  Without the proviso
the plain object behind `_.groupBy` enumerates array-index-like keys first
in numeric order and the tie-break can pick a lower-priority source. -/
theorem vote_first_seen_grouping_and_stable_sort
    (sources : List LocationInfoWithProvider)
    (hnum : ∀ s ∈ voteFiltered (fun s => s.normalizedCity) sources,
      isArrayIndexKey s.normalizedCity = false) :
    let nf : LocationInfoWithProvider → String := fun s => s.normalizedCity
    let fl := voteFiltered nf sources
    let gs := (groupByKey nf fl).map Prod.snd
    (objectValues (groupByKey nf fl) = gs)
    ∧ ((groupByKey nf fl).map Prod.fst = firstSeen (fl.map nf))
    ∧ (∀ n : Nat, (sortGroupsDesc gs).filter (fun g => g.length == n)
        = gs.filter (fun g => g.length == n))
    ∧ ((sortGroupsDesc gs).Pairwise (fun a b => b.length ≤ a.length))
    ∧ ((rankCandidates nf sources).head?
        = fl.find? (fun s => fl.all (fun t =>
            decide (keyCount nf fl (nf t) ≤ keyCount nf fl (nf s))))) := by
  intro nf fl gs
  have hkeys : ∀ p ∈ groupByKey nf fl, isArrayIndexKey p.fst = false := by
    intro p hp
    rcases groupByKey_keys_mem nf fl p hp with ⟨x, hx, hpx⟩
    rw [hpx]
    exact hnum x hx
  exact ⟨objectValues_of_no_index _ hkeys,
    groupByKey_keys_firstSeen nf fl,
    fun n => filter_len_sortGroupsDesc n gs,
    pairwise_sortGroupsDesc gs,
    rankCandidates_head_of_no_index nf sources hnum⟩

/-- Witness for C1 (amended) at a concrete list with no array-index-like
city keys. -/
theorem vote_first_seen_grouping_and_stable_sort_witness :
    (rankCandidates (fun s => s.normalizedCity) c2sources).head?
      = (voteFiltered (fun s => s.normalizedCity) c2sources).find? (fun s =>
          (voteFiltered (fun s => s.normalizedCity) c2sources).all (fun t =>
            decide (keyCount (fun s2 => s2.normalizedCity)
                (voteFiltered (fun s2 => s2.normalizedCity) c2sources) t.normalizedCity
              ≤ keyCount (fun s2 => s2.normalizedCity)
                (voteFiltered (fun s2 => s2.normalizedCity) c2sources) s.normalizedCity))) :=
  (vote_first_seen_grouping_and_stable_sort c2sources (by decide)).2.2.2.2

/-- C2: whenever a strict majority of the participating (city-reporting)
candidates share one `normalizedCity` value, any winner produced by
`bestMatch` carries exactly that value, regardless of which sources form the
majority. -/
theorem majority_city_wins (sources : List LocationInfoWithProvider) (k : String)
    (hmaj : (voteFiltered (fun s => s.normalizedCity) sources).length
      < 2 * keyCount (fun s => s.normalizedCity)
            (voteFiltered (fun s => s.normalizedCity) sources) k) :
    ∀ m r, bestMatch (fun s => s.normalizedCity) sources = some (m, r) →
      m.normalizedCity = k := by
  set nf : LocationInfoWithProvider → String := fun s => s.normalizedCity with hnf
  set fl := voteFiltered nf sources with hfl
  intro m r hbm
  obtain ⟨best, hhead, hfast, hm, hr⟩ := bestMatch_eq_some _ _ _ _ hbm
  obtain ⟨g, hg, hbestg, hgmax⟩ := rank_head_max_group nf sources best hhead
  obtain ⟨x, hx, hkeyg, hleng⟩ := groupByKey_group_key nf fl g hg
  have hbestkey : nf best = nf x := hkeyg best hbestg
  have hcntle := keyCount_le_length nf k fl
  have hkpos : 0 < keyCount nf fl k := by omega
  obtain ⟨t, ht, htk⟩ := exists_mem_of_keyCount_pos nf k fl hkpos
  obtain ⟨gk, hgk, hgkcnt⟩ := keyCount_is_groupByKey_length nf fl t ht
  have hkg : keyCount nf fl k ≤ g.length := by
    rw [← htk, hgkcnt]
    exact hgmax gk hgk
  rw [hleng] at hkg
  rcases eq_or_ne (nf x) k with he | hne
  · rw [hm]
    exact hbestkey.trans he
  · exfalso
    have hdisj := keyCount_add_le nf (nf x) k hne fl
    omega

/-- Witness for C2 at a concrete 3-against-2 candidate list. -/
theorem majority_city_wins_witness :
    ((voteFiltered (fun s => s.normalizedCity) c2sources).length
      < 2 * keyCount (fun s => s.normalizedCity)
            (voteFiltered (fun s => s.normalizedCity) c2sources) "dallas")
    ∧ (mkCity Provider.ip2location "Dallas" "dallas" 1 "n1" "n1").toLocationInfo.normalizedCity
        = "dallas" :=
  ⟨by decide, majority_city_wins c2sources "dallas" (by decide)
    (mkCity Provider.ip2location "Dallas" "dallas" 1 "n1" "n1").toLocationInfo
    c2sources (by decide)⟩

/-- C3: `lookup` fails with the VpnDetected error (message exactly
"vpn detected") if and only if the ip2location query succeeded with
`isProxy` true and the address is not allowlisted; this failure overrides
any other outcome, and for an allowlisted address the same proxy-flagged
input proceeds exactly as the non-proxy input does. -/
theorem vpn_gate_iff (env : GeoEnv) (addr : String)
    (i2l : Option Ip2LocationBundledResponse) (ipm mm ipi fa : Option LocationInfo) :
    (lookup env addr i2l ipm mm ipi fa
        = Except.error (GeoError.internalError "vpn detected" true)
      ↔ (∃ v, i2l = some v ∧ v.isProxy = true) ∧ env.isAddrWhitelisted addr = false)
    ∧ (∀ loc : LocationInfo, env.isAddrWhitelisted addr = true →
        lookup env addr (some { location := loc, isProxy := true }) ipm mm ipi fa
          = lookup env addr (some { location := loc, isProxy := false }) ipm mm ipi fa) := by
  constructor
  · constructor
    · intro h
      by_cases hg : vpnDetected env addr i2l = true
      · cases i2l with
        | none => simp [vpnDetected] at hg
        | some v =>
          rw [vpnDetected, Bool.and_eq_true] at hg
          refine ⟨⟨v, rfl, hg.1⟩, ?_⟩
          simpa using hg.2
      · exfalso
        have hg0 : vpnDetected env addr i2l = false := by simpa using hg
        by_cases hc : unresolvableCheck (candidateRecords i2l ipm mm ipi fa) = true
        · simp only [lookup, hg0, Bool.false_eq_true, if_false, hc, if_true] at h
          injection h with h2
          injection h2 with h3
          exact unresolvable_msg_ne addr h3
        · have hc0 : unresolvableCheck (candidateRecords i2l ipm mm ipi fa) = false := by
            simpa using hc
          cases hbm : bestMatch (fun s => s.normalizedCity)
              (candidateRecords i2l ipm mm ipi fa) with
          | none =>
            simp [lookup, hg0, hc0, hbm] at h
          | some p =>
            obtain ⟨m, ranked⟩ := p
            cases hmn : matchNetwork m ranked with
            | none =>
              simp only [lookup, hg0, Bool.false_eq_true, if_false, hc0, hbm, hmn] at h
              injection h with h2
              injection h2 with h3
              exact unresolvable_msg_ne addr h3
            | some nw =>
              simp [lookup, hg0, hc0, hbm, hmn] at h
    · rintro ⟨⟨v, hv, hproxy⟩, hwl⟩
      subst hv
      have hg : vpnDetected env addr (some v) = true := by
        simp [vpnDetected, hproxy, hwl]
      simp [lookup, hg]
  · intro loc hwl
    have h1 : vpnDetected env addr (some { location := loc, isProxy := true }) = false := by
      simp [vpnDetected, hwl]
    have h2 : vpnDetected env addr (some { location := loc, isProxy := false }) = false := by
      simp [vpnDetected, hwl]
    have h3 : candidateRecords (some { location := loc, isProxy := true }) ipm mm ipi fa
        = candidateRecords (some { location := loc, isProxy := false }) ipm mm ipi fa := by
      simp [candidateRecords]
    simp only [lookup, h1, h2, Bool.false_eq_true, if_false, h3]

/-- Witness for C3: a proxy-flagged non-allowlisted address fails with the
VPN error, and the same proxy-flagged input behaves like the non-proxy one
once the allowlist accepts the address. -/
theorem vpn_gate_iff_witness :
    (lookup envT "10.0.0.1"
        (some { location := (mkCity Provider.ip2location "Dallas" "dallas" 1 "n1" "n1").toLocationInfo,
                isProxy := true }) none none none none
      = Except.error (GeoError.internalError "vpn detected" true))
    ∧ (lookup envWL "10.0.0.1"
        (some { location := (mkCity Provider.ip2location "Dallas" "dallas" 1 "n1" "n1").toLocationInfo,
                isProxy := true }) none none none none
      = lookup envWL "10.0.0.1"
        (some { location := (mkCity Provider.ip2location "Dallas" "dallas" 1 "n1" "n1").toLocationInfo,
                isProxy := false }) none none none none) :=
  ⟨(vpn_gate_iff envT "10.0.0.1"
      (some { location := (mkCity Provider.ip2location "Dallas" "dallas" 1 "n1" "n1").toLocationInfo,
              isProxy := true }) none none none none).1.mpr
    ⟨⟨_, rfl, rfl⟩, rfl⟩,
   (vpn_gate_iff envWL "10.0.0.1" none none none none none).2
    (mkCity Provider.ip2location "Dallas" "dallas" 1 "n1" "n1").toLocationInfo rfl⟩

/-- C4: when the VPN gate passes and either no candidate carries a non-empty
city or the only one that does comes from fastly, `lookup` fails with the
UnresolvableLocation error whose message is exactly
`"unresolvable geoip: <address>"`. -/
theorem step4_unresolvable (env : GeoEnv) (addr : String)
    (i2l : Option Ip2LocationBundledResponse) (ipm mm ipi fa : Option LocationInfo)
    (hgate : vpnDetected env addr i2l = false)
    (hcities : (candidateRecords i2l ipm mm ipi fa).filter (fun s => s.city != "") = []
      ∨ ∃ s, (candidateRecords i2l ipm mm ipi fa).filter (fun s => s.city != "") = [s]
          ∧ s.provider = Provider.fastly) :
    lookup env addr i2l ipm mm ipi fa
      = Except.error (GeoError.internalError ("unresolvable geoip: " ++ addr) true) := by
  have hchk : unresolvableCheck (candidateRecords i2l ipm mm ipi fa) = true := by
    rcases hcities with h | ⟨s, hs, hp⟩
    · simp [unresolvableCheck, h]
    · simp [unresolvableCheck, hs, hp]
  simp [lookup, hgate, hchk]

/-- Witness for C4: only fastly reports a city. -/
theorem step4_unresolvable_witness :
    lookup envT "9.9.9.9" none none none none
        (some (mkCity Provider.fastly "X" "x" 5 "n5" "n5").toLocationInfo)
      = Except.error (GeoError.internalError ("unresolvable geoip: " ++ "9.9.9.9") true) :=
  step4_unresolvable envT "9.9.9.9" none none none none
    (some (mkCity Provider.fastly "X" "x" 5 "n5" "n5").toLocationInfo)
    rfl
    (Or.inr ⟨{ toLocationInfo := (mkCity Provider.fastly "X" "x" 5 "n5" "n5").toLocationInfo,
               provider := Provider.fastly }, by decide, rfl⟩)

/-- C5: for a vote outcome `(w, r)` of `lookup`'s consensus step, the
network fields come from `w` itself when it carries a non-zero ASN and a
non-empty network; otherwise from the first ranked candidate of the same
`normalizedCity` carrying both; and when no such candidate exists, `lookup`
fails with the UnresolvableLocation error
`"unresolvable geoip: <address>"`. -/
theorem network_repair (env : GeoEnv) (addr : String)
    (i2l : Option Ip2LocationBundledResponse) (ipm mm ipi fa : Option LocationInfo)
    (w : LocationInfo) (r : List LocationInfoWithProvider)
    (hgate : vpnDetected env addr i2l = false)
    (hchk : unresolvableCheck (candidateRecords i2l ipm mm ipi fa) = false)
    (hbm : bestMatch (fun s => s.normalizedCity) (candidateRecords i2l ipm mm ipi fa)
      = some (w, r)) :
    (w.asn ≠ 0 → w.network ≠ "" →
        matchNetwork w r = some { asn := w.asn, network := w.network,
                                  normalizedNetwork := w.normalizedNetwork })
    ∧ ((w.asn = 0 ∨ w.network = "") →
        matchNetwork w r = (r.find? (fun s =>
            s.normalizedCity == w.normalizedCity && s.asn != 0 && s.network != "")).map
          (fun s => { asn := s.asn, network := s.network,
                      normalizedNetwork := s.normalizedNetwork }))
    ∧ (∀ nw, matchNetwork w r = some nw →
        lookup env addr i2l ipm mm ipi fa = Except.ok {
            continent := w.continent, country := w.country, state := w.state,
            city := w.city, region := (matchRegion env w).region,
            normalizedRegion := (matchRegion env w).normalizedRegion,
            normalizedCity := w.normalizedCity, asn := nw.asn,
            latitude := w.latitude, longitude := w.longitude,
            network := nw.network, normalizedNetwork := nw.normalizedNetwork })
    ∧ (matchNetwork w r = none →
        lookup env addr i2l ipm mm ipi fa
          = Except.error (GeoError.internalError ("unresolvable geoip: " ++ addr) true)) := by
  refine ⟨?_, ?_, ?_, ?_⟩
  · intro h1 h2
    rw [matchNetwork, if_pos ⟨h1, h2⟩]
  · intro h
    rw [matchNetwork, if_neg]
    rintro ⟨ha, hb⟩
    rcases h with h | h
    · exact ha h
    · exact hb h
  · intro nw hnw
    simp only [lookup, hgate, Bool.false_eq_true, if_false, hchk, hbm, hnw]
  · intro hnone
    simp only [lookup, hgate, Bool.false_eq_true, if_false, hchk, hbm, hnone]

/-- Fixture for the C5 witness: the winner lacking network data. -/
def c5winner : LocationInfo :=
  (mkCity Provider.ip2location "Dallas" "dallas" 0 "" "").toLocationInfo

/-- Fixture for the C5 witness: the same-city candidate carrying network
data. -/
def c5donor : LocationInfo :=
  (mkCity Provider.ipmap "Dallas" "dallas" 20001 "The Constant Company LLC"
    "the constant company llc").toLocationInfo

/-- Witness for C5: the ip2location winner lacks ASN/network and adopts them
from the same-city ipmap candidate. -/
theorem network_repair_witness :
    lookup envT "4.4.4.4" (some { location := c5winner, isProxy := false })
        (some c5donor) none none none
      = Except.ok {
          continent := c5winner.continent, country := c5winner.country,
          state := c5winner.state, city := c5winner.city,
          region := (matchRegion envT c5winner).region,
          normalizedRegion := (matchRegion envT c5winner).normalizedRegion,
          normalizedCity := c5winner.normalizedCity, asn := 20001,
          latitude := c5winner.latitude, longitude := c5winner.longitude,
          network := "The Constant Company LLC",
          normalizedNetwork := "the constant company llc" } :=
  (network_repair envT "4.4.4.4" (some { location := c5winner, isProxy := false })
      (some c5donor) none none none c5winner
      [{ toLocationInfo := c5winner, provider := Provider.ip2location },
       { toLocationInfo := c5donor, provider := Provider.ipmap }]
      rfl (by decide) (by decide)).2.2.1
    { asn := 20001, network := "The Constant Company LLC",
      normalizedNetwork := "the constant company llc" }
    (by decide)

/-- C6: `lookupWithCache` never propagates a cache backend failure.  A
failed `cache.get` behaves exactly as a miss (the computation runs and its
outcome is returned), a failed `cache.set` after a miss still returns the
freshly computed value, and with every cache operation failing the composed
`lookup` gives the same answer as with no cache at all. -/
theorem cache_failure_never_propagates :
    (∀ (T : Type) (truthy : T → Bool) (cb : CacheBehavior T) (fn : Except String T)
        (e : String), cb.getOutcome = Except.error e →
          lookupWithCache truthy cb fn = cacheMissPath fn
          ∧ (lookupWithCache truthy cb fn).fnInvoked = true
          ∧ (lookupWithCache truthy cb fn).result = fn)
    ∧ (∀ (T : Type) (truthy : T → Bool) (cb : CacheBehavior T) (info : T) (e : String),
        (∀ v, cb.getOutcome ≠ Except.ok (some v)) →
        cb.setOutcome = Except.error e →
          (lookupWithCache truthy cb (Except.ok info)).result = Except.ok info)
    ∧ (∀ (env : GeoEnv) (addr : String)
        (cb1 : CacheBehavior Ip2LocationBundledResponse)
        (cb2 cb3 cb4 cb5 : CacheBehavior LocationInfo)
        (a1 : Except String Ip2LocationBundledResponse)
        (a2 a3 a4 a5 : Except String LocationInfo)
        (e1 e2 e3 e4 e5 : String),
        cb1.getOutcome = Except.error e1 → cb1.setOutcome = Except.error e1 →
        cb2.getOutcome = Except.error e2 → cb2.setOutcome = Except.error e2 →
        cb3.getOutcome = Except.error e3 → cb3.setOutcome = Except.error e3 →
        cb4.getOutcome = Except.error e4 → cb4.setOutcome = Except.error e4 →
        cb5.getOutcome = Except.error e5 → cb5.setOutcome = Except.error e5 →
          lookupViaCache env addr cb1 cb2 cb3 cb4 cb5 a1 a2 a3 a4 a5
            = lookup env addr (settle a1) (settle a2) (settle a3) (settle a4) (settle a5)) := by
  have key : ∀ (T : Type) (truthy : T → Bool) (cb : CacheBehavior T)
      (fn : Except String T) (e : String), cb.getOutcome = Except.error e →
        lookupWithCache truthy cb fn = cacheMissPath fn := by
    intro T truthy cb fn e he
    exact lookupWithCache_of_get_missing truthy cb fn (fun v h => by rw [he] at h; cases h)
  refine ⟨?_, ?_, ?_⟩
  · intro T truthy cb fn e he
    refine ⟨key T truthy cb fn e he, ?_, ?_⟩
    · rw [key T truthy cb fn e he]
      cases fn with
      | error e2 => rfl
      | ok info => rfl
    · rw [key T truthy cb fn e he, cacheMissPath_result]
  · intro T truthy cb info e hget hset
    rw [lookupWithCache_of_get_missing truthy cb _ hget, cacheMissPath_result]
  · intro env addr cb1 cb2 cb3 cb4 cb5 a1 a2 a3 a4 a5 e1 e2 e3 e4 e5
      hg1 hs1 hg2 hs2 hg3 hs3 hg4 hs4 hg5 hs5
    rw [lookupViaCache,
      key _ _ cb1 a1 e1 hg1, key _ _ cb2 a2 e2 hg2, key _ _ cb3 a3 e3 hg3,
      key _ _ cb4 a4 e4 hg4, key _ _ cb5 a5 e5 hg5,
      cacheMissPath_result, cacheMissPath_result, cacheMissPath_result,
      cacheMissPath_result, cacheMissPath_result]

/-- Fixture: a cache whose operations all fail. -/
def cbBroken (T : Type) : CacheBehavior T :=
  { getOutcome := Except.error "broken", setOutcome := Except.error "broken" }

/-- Fixture: a cache that always misses and accepts writes. -/
def cbMiss (T : Type) : CacheBehavior T :=
  { getOutcome := Except.ok none, setOutcome := Except.ok () }

/-- Witness for C6: a broken cache behaves as a miss on `Nat` values, and
the five-source lookup with a fully broken cache equals the cacheless
lookup at a concrete input. -/
theorem cache_failure_never_propagates_witness :
    ((lookupWithCache (fun _ : Nat => true) (cbBroken Nat) (Except.ok 7)).result
        = Except.ok 7)
    ∧ (lookupViaCache envT "1.2.3.4" (cbBroken Ip2LocationBundledResponse)
        (cbBroken LocationInfo) (cbBroken LocationInfo) (cbBroken LocationInfo)
        (cbBroken LocationInfo)
        (Except.ok { location := c5winner, isProxy := false }) (Except.ok c5donor)
        (Except.error "net") (Except.error "net") (Except.error "net")
      = lookup envT "1.2.3.4"
          (settle (Except.ok { location := c5winner, isProxy := false }))
          (settle (Except.ok c5donor)) (settle (Except.error "net"))
          (settle (Except.error "net")) (settle (Except.error "net"))) :=
  ⟨(cache_failure_never_propagates.1 Nat (fun _ => true) (cbBroken Nat)
      (Except.ok 7) "broken" rfl).2.2,
   cache_failure_never_propagates.2.2 envT "1.2.3.4"
    (cbBroken Ip2LocationBundledResponse) (cbBroken LocationInfo)
    (cbBroken LocationInfo) (cbBroken LocationInfo) (cbBroken LocationInfo)
    (Except.ok { location := c5winner, isProxy := false }) (Except.ok c5donor)
    (Except.error "net") (Except.error "net") (Except.error "net")
    "broken" "broken" "broken" "broken" "broken"
    rfl rfl rfl rfl rfl rfl rfl rfl rfl rfl⟩

/-- C10: the cache-hit test of `lookupWithCache` is JavaScript truthiness,
not presence.  A cached value that is falsy is treated exactly as a miss:
the computation runs, its fresh value is written back and returned; only a
truthy cached value short-circuits the computation. -/
theorem falsy_cached_value_is_miss (T : Type) (truthy : T → Bool)
    (cb : CacheBehavior T) (fn : Except String T) (c : T)
    (hget : cb.getOutcome = Except.ok (some c)) :
    (truthy c = false →
        lookupWithCache truthy cb fn = cacheMissPath fn
        ∧ (lookupWithCache truthy cb fn).fnInvoked = true
        ∧ (∀ info, fn = Except.ok info →
            (lookupWithCache truthy cb fn).result = Except.ok info
            ∧ (lookupWithCache truthy cb fn).cacheWrite = some info))
    ∧ (truthy c = true →
        lookupWithCache truthy cb fn
          = { result := Except.ok c, fnInvoked := false, cacheWrite := none }) := by
  have hunfold : lookupWithCache truthy cb fn
      = if truthy c then { result := Except.ok c, fnInvoked := false, cacheWrite := none }
        else cacheMissPath fn := by
    rw [lookupWithCache, hget]
  constructor
  · intro hf
    rw [hunfold, if_neg (by rw [hf]; exact Bool.false_ne_true)]
    refine ⟨rfl, ?_, ?_⟩
    · cases fn with
      | error e => rfl
      | ok info => rfl
    · intro info hinfo
      subst hinfo
      exact ⟨rfl, rfl⟩
  · intro ht
    rw [hunfold, if_pos ht]

/-- Witness for C10: a cached `0` under numeric truthiness is a miss and the
fresh value `7` is computed, written back and returned. -/
theorem falsy_cached_value_is_miss_witness :
    ((lookupWithCache (fun n : Nat => n != 0)
        { getOutcome := Except.ok (some 0), setOutcome := Except.ok () }
        (Except.ok 7)).result = Except.ok 7)
    ∧ ((lookupWithCache (fun n : Nat => n != 0)
        { getOutcome := Except.ok (some 0), setOutcome := Except.ok () }
        (Except.ok 7)).cacheWrite = some 7) :=
  ((falsy_cached_value_is_miss Nat (fun n => n != 0)
      { getOutcome := Except.ok (some 0), setOutcome := Except.ok () }
      (Except.ok 7) 0 rfl).1 rfl).2.2 7 rfl

/-- C9: `lookup` is deterministic in its inputs: for a fixed tuple of the
five adapter outcomes, allowlist and region table, two runs on the same
address whose caches contribute nothing (every `cache.get` yields no value,
whether by failing or by missing) produce identical results, field for
field. -/
theorem lookup_deterministic (env : GeoEnv) (addr : String)
    (cb1 cb1b : CacheBehavior Ip2LocationBundledResponse)
    (cb2 cb3 cb4 cb5 cb2b cb3b cb4b cb5b : CacheBehavior LocationInfo)
    (a1 : Except String Ip2LocationBundledResponse)
    (a2 a3 a4 a5 : Except String LocationInfo)
    (h1 : ∀ v, cb1.getOutcome ≠ Except.ok (some v))
    (h2 : ∀ v, cb2.getOutcome ≠ Except.ok (some v))
    (h3 : ∀ v, cb3.getOutcome ≠ Except.ok (some v))
    (h4 : ∀ v, cb4.getOutcome ≠ Except.ok (some v))
    (h5 : ∀ v, cb5.getOutcome ≠ Except.ok (some v))
    (h1b : ∀ v, cb1b.getOutcome ≠ Except.ok (some v))
    (h2b : ∀ v, cb2b.getOutcome ≠ Except.ok (some v))
    (h3b : ∀ v, cb3b.getOutcome ≠ Except.ok (some v))
    (h4b : ∀ v, cb4b.getOutcome ≠ Except.ok (some v))
    (h5b : ∀ v, cb5b.getOutcome ≠ Except.ok (some v)) :
    lookupViaCache env addr cb1 cb2 cb3 cb4 cb5 a1 a2 a3 a4 a5
      = lookupViaCache env addr cb1b cb2b cb3b cb4b cb5b a1 a2 a3 a4 a5 := by
  rw [lookupViaCache, lookupViaCache,
    lookupWithCache_of_get_missing _ cb1 a1 h1, lookupWithCache_of_get_missing _ cb2 a2 h2,
    lookupWithCache_of_get_missing _ cb3 a3 h3, lookupWithCache_of_get_missing _ cb4 a4 h4,
    lookupWithCache_of_get_missing _ cb5 a5 h5,
    lookupWithCache_of_get_missing _ cb1b a1 h1b, lookupWithCache_of_get_missing _ cb2b a2 h2b,
    lookupWithCache_of_get_missing _ cb3b a3 h3b, lookupWithCache_of_get_missing _ cb4b a4 h4b,
    lookupWithCache_of_get_missing _ cb5b a5 h5b]

/-- Witness for C9: a failing cache and a cleanly missing cache give the
same result at a concrete input. -/
theorem lookup_deterministic_witness :
    lookupViaCache envT "1.2.3.4" (cbBroken Ip2LocationBundledResponse)
        (cbBroken LocationInfo) (cbBroken LocationInfo) (cbBroken LocationInfo)
        (cbBroken LocationInfo)
        (Except.ok { location := c5winner, isProxy := false }) (Except.ok c5donor)
        (Except.error "net") (Except.error "net") (Except.error "net")
      = lookupViaCache envT "1.2.3.4" (cbMiss Ip2LocationBundledResponse)
        (cbMiss LocationInfo) (cbMiss LocationInfo) (cbMiss LocationInfo)
        (cbMiss LocationInfo)
        (Except.ok { location := c5winner, isProxy := false }) (Except.ok c5donor)
        (Except.error "net") (Except.error "net") (Except.error "net") :=
  lookup_deterministic envT "1.2.3.4" (cbBroken Ip2LocationBundledResponse)
    (cbMiss Ip2LocationBundledResponse) (cbBroken LocationInfo) (cbBroken LocationInfo)
    (cbBroken LocationInfo) (cbBroken LocationInfo) (cbMiss LocationInfo)
    (cbMiss LocationInfo) (cbMiss LocationInfo) (cbMiss LocationInfo)
    (Except.ok { location := c5winner, isProxy := false }) (Except.ok c5donor)
    (Except.error "net") (Except.error "net") (Except.error "net")
    (fun v h => by cases h) (fun v h => by cases h) (fun v h => by cases h)
    (fun v h => by cases h) (fun v h => by cases h) (fun v h => by cases h)
    (fun v h => by cases h) (fun v h => by cases h) (fun v h => by cases h)
    (fun v h => by cases h)

/-- Fixture for C7: an ip2location candidate with a city but an empty
`normalizedCity`, so that step 4 passes while the vote sees only fastly. -/
def oddCand : LocationInfoWithProvider := mkCity Provider.ip2location "Odd" "" 9 "n9" "n9"

/-- Fixture for C7: the fastly candidate that tops the vote. -/
def fastlyCand : LocationInfoWithProvider := mkCity Provider.fastly "Y" "y" 5 "n5" "n5"

/-- Counterexample for C7: on an input that passes the step-4 filter but
whose vote winner comes from fastly, `lookup` fails with the plain
`Error('failed to find a correct value for a field "normalizedCity"')`,
which is neither the UnresolvableLocation kind nor its message. -/
theorem defensive_vote_counterexample :
    lookup envT "93.0.0.1" (some { location := oddCand.toLocationInfo, isProxy := false })
        none none none (some fastlyCand.toLocationInfo)
      = Except.error (GeoError.genericError
          "failed to find a correct value for a field \"normalizedCity\"")
    ∧ Except.error (GeoError.genericError
          "failed to find a correct value for a field \"normalizedCity\"")
      ≠ (Except.error (GeoError.internalError ("unresolvable geoip: " ++ "93.0.0.1") true) :
          Except GeoError ProbeLocation) := by
  constructor
  · decide
  · decide

/-- C7 (amended): when the vote yields no winner at all, or a winner whose
source is fastly, `lookup` fails — but with the plain generic error message
`failed to find a correct value for a field "normalizedCity"`, not with the
step-4 UnresolvableLocation kind and message. -/
theorem defensive_vote_generic_error (env : GeoEnv) (addr : String)
    (i2l : Option Ip2LocationBundledResponse) (ipm mm ipi fa : Option LocationInfo)
    (hgate : vpnDetected env addr i2l = false)
    (hchk : unresolvableCheck (candidateRecords i2l ipm mm ipi fa) = false)
    (hvote : (rankCandidates (fun s => s.normalizedCity)
        (candidateRecords i2l ipm mm ipi fa)).head? = none
      ∨ ∃ s, (rankCandidates (fun s => s.normalizedCity)
          (candidateRecords i2l ipm mm ipi fa)).head? = some s
          ∧ s.provider = Provider.fastly) :
    lookup env addr i2l ipm mm ipi fa
      = Except.error (GeoError.genericError
          "failed to find a correct value for a field \"normalizedCity\"") := by
  have hbm : bestMatch (fun s => s.normalizedCity)
      (candidateRecords i2l ipm mm ipi fa) = none := by
    rcases hvote with h | ⟨s, hs, hp⟩
    · simp [bestMatch, h]
    · simp [bestMatch, hs, hp]
  simp [lookup, hgate, hchk, hbm]

/-- Witness for C7 (amended) at the counterexample's input. -/
theorem defensive_vote_generic_error_witness :
    lookup envT "93.0.0.2" (some { location := oddCand.toLocationInfo, isProxy := false })
        none none none (some fastlyCand.toLocationInfo)
      = Except.error (GeoError.genericError
          "failed to find a correct value for a field \"normalizedCity\"") :=
  defensive_vote_generic_error envT "93.0.0.2"
    (some { location := oddCand.toLocationInfo, isProxy := false })
    none none none (some fastlyCand.toLocationInfo)
    rfl (by decide)
    (Or.inr ⟨fastlyCand, by decide, rfl⟩)

/-- Fixture for C8: a candidate with an empty continent and no state despite
`country = "US"`; `lookup` passes it through unchecked. -/
def locPartial : LocationInfo :=
  { continent := "", country := "US", state := none, city := "Dallas",
    normalizedCity := "dallas", asn := 100, latitude := 0, longitude := 0,
    network := "N", normalizedNetwork := "n" }

/-- The partial result `lookup` returns for `locPartial`. -/
def resPartial : ProbeLocation :=
  { continent := "", country := "US", state := none, city := "Dallas",
    region := "Northern America", normalizedRegion := "northern america",
    normalizedCity := "dallas", asn := 100, latitude := 0, longitude := 0,
    network := "N", normalizedNetwork := "n" }

/-- Counterexample for C8: `lookup` succeeds and returns a result whose
continent is empty and whose state is absent although the country is "US" —
a partial result under the spec's presence predicates. -/
theorem full_population_counterexample :
    lookup envT "203.0.113.5" (some { location := locPartial, isProxy := false })
        none none none none = Except.ok resPartial
    ∧ resPartial.continent = "" ∧ resPartial.country = "US" ∧ resPartial.state = none :=
  ⟨by decide, rfl, rfl, rfl⟩

/-- C8 (amended): a successful `lookup` always carries a non-zero ASN, a
non-empty network and a non-empty normalizedCity (these are the presence
checks the pipeline actually enforces); the remaining fields are copied from
the winning candidate and the region resolver without any presence check and
may be absent. -/
theorem lookup_success_guarantees (env : GeoEnv) (addr : String)
    (i2l : Option Ip2LocationBundledResponse) (ipm mm ipi fa : Option LocationInfo)
    (res : ProbeLocation)
    (h : lookup env addr i2l ipm mm ipi fa = Except.ok res) :
    res.asn ≠ 0 ∧ res.network ≠ "" ∧ res.normalizedCity ≠ "" := by
  by_cases hg : vpnDetected env addr i2l = true
  · simp [lookup, hg] at h
  · have hg0 : vpnDetected env addr i2l = false := by simpa using hg
    by_cases hc : unresolvableCheck (candidateRecords i2l ipm mm ipi fa) = true
    · simp [lookup, hg0, hc] at h
    · have hc0 : unresolvableCheck (candidateRecords i2l ipm mm ipi fa) = false := by
        simpa using hc
      cases hbm : bestMatch (fun s => s.normalizedCity)
          (candidateRecords i2l ipm mm ipi fa) with
      | none => simp [lookup, hg0, hc0, hbm] at h
      | some p =>
        obtain ⟨m, ranked⟩ := p
        cases hmn : matchNetwork m ranked with
        | none => simp [lookup, hg0, hc0, hbm, hmn] at h
        | some nw =>
          simp only [lookup, hg0, Bool.false_eq_true, if_false, hc0, hbm, hmn,
            Except.ok.injEq] at h
          have hnw : nw.asn ≠ 0 ∧ nw.network ≠ "" := by
            rw [matchNetwork] at hmn
            by_cases hgd : m.asn ≠ 0 ∧ m.network ≠ ""
            · rw [if_pos hgd] at hmn
              injection hmn with hmn
              rw [← hmn]
              exact ⟨hgd.1, hgd.2⟩
            · rw [if_neg hgd] at hmn
              rcases Option.map_eq_some'.mp hmn with ⟨s, hfind, hrec⟩
              have hp := List.find?_some hfind
              rw [Bool.and_eq_true, Bool.and_eq_true] at hp
              rcases hp with ⟨⟨_, hasn⟩, hnet⟩
              rw [← hrec]
              constructor
              · simpa using hasn
              · simpa using hnet
          have hmne : m.normalizedCity ≠ "" := by
            obtain ⟨best, hhead, hfast, hmb, hrk⟩ := bestMatch_eq_some _ _ _ _ hbm
            have hbmem : best ∈ rankCandidates (fun s => s.normalizedCity)
                (candidateRecords i2l ipm mm ipi fa) := by
              cases hr2 : rankCandidates (fun s => s.normalizedCity)
                  (candidateRecords i2l ipm mm ipi fa) with
              | nil => rw [hr2] at hhead; cases hhead
              | cons a t =>
                rw [hr2] at hhead
                injection hhead with hhead
                rw [← hhead]
                exact List.mem_cons_self _ _
            have hfl := mem_voteFiltered_of_mem_rankCandidates _ _ _ hbmem
            have hbne := (List.mem_filter.mp hfl).2
            rw [hmb]
            simpa using hbne
          rw [← h]
          exact ⟨hnw.1, hnw.2, hmne⟩

/-- Witness for C8 (amended): the guarantees hold at a concrete successful
lookup. -/
theorem lookup_success_guarantees_witness :
    resPartial.asn ≠ 0 ∧ resPartial.network ≠ "" ∧ resPartial.normalizedCity ≠ "" :=
  lookup_success_guarantees envT "203.0.113.9"
    (some { location := locPartial, isProxy := false }) none none none none
    resPartial (by decide)
